import Mathlib

/-!
Verification of the moya-app/traefik-custom-patches TCP stream-compression
middleware (`pkg/middlewares/tcp/streamcompress`).  The Go source is shallowly
embedded: pure control flow becomes Lean functions, the stateful chunked relay
of `zstdCompressor.Read` becomes an explicit state machine, and the external
zstd codec (github.com/klauspost/compress/zstd) is abstracted as a deterministic
stateful encoder / stream decoder pair, with its round-trip contract taken as a
hypothesis where a theorem needs it.
-/

set_option maxHeartbeats 1000000

namespace StreamCompress

/-- Go `error` values occurring in the middleware: `io.EOF`, `net.ErrClosed`
(returned by closing an already-closed connection), and any other error
identified by a numeric code.  `Option GoErr` models a Go `error` result,
`none` being `nil`. -/
inductive GoErr where
  | eof
  | errClosed
  | other (code : Nat)
deriving DecidableEq, Repr

/-- `zstd.EncoderLevel` of github.com/klauspost/compress/zstd: the four named
speed levels. -/
inductive EncoderLevel where
  | fastest
  | speedDefault
  | better
  | best
deriving DecidableEq, Repr

/-- `zstd.EncoderLevelFromString`: maps the four recognised level names to
`(true, level)` and anything else to `(false, SpeedDefault)`. -/
def encoderLevelFromString (s : String) : Bool × EncoderLevel :=
  if s = "fastest" then (true, .fastest)
  else if s = "default" then (true, .speedDefault)
  else if s = "better" then (true, .better)
  else if s = "best" then (true, .best)
  else (false, .speedDefault)

/-- `dynamic.TCPStreamCompress`: the middleware's configuration record. -/
structure Config where
  algorithm : String
  level : String
  dictionary : String
  upstream : Bool
deriving DecidableEq, Repr

/-- The `streamCompress` middleware value built by `New` (the `next` handler
and logger are opaque and omitted; `dict` is `none` for Go's nil slice). -/
structure StreamCompressMW where
  algorithm : String
  name : String
  dict : Option (List Nat)
  level : EncoderLevel
  upstream : Bool
deriving DecidableEq, Repr

/-- `New` (streamcompress middleware constructor).  `fs` models
`ioutil.ReadFile`: the file system as a partial map from path to contents.
Mirrors the source: reject any algorithm other than "zstd"; reject a non-empty
level that `EncoderLevelFromString` does not recognise; if a dictionary path is
given, fail when the file cannot be read; otherwise return the middleware.
`New` takes no connection argument, mirroring the Go signature. -/
def New (fs : String → Option (List Nat)) (config : Config) (name : String) :
    Except String StreamCompressMW :=
  if config.algorithm ≠ "zstd" then
    .error ("unknown compression algorithm " ++ config.algorithm)
  else
    let fl := encoderLevelFromString config.level
    if fl.1 = false ∧ config.level ≠ "" then
      .error ("unknown compression level " ++ config.level)
    else
      if config.dictionary ≠ "" then
        match fs config.dictionary with
        | none => .error ("failed to read dictionary file " ++ config.dictionary)
        | some d =>
            .ok ⟨config.algorithm, name, some d, fl.2, config.upstream⟩
      else
        .ok ⟨config.algorithm, name, none, fl.2, config.upstream⟩

/-- Whether an `Except` result is an error. -/
def isErr : Except String StreamCompressMW → Bool
  | .error _ => true
  | .ok _ => false

/-- The observable operations a wrapper's `Close` performs, in program order. -/
inductive CloseOp where
  | setDeadlineMs (ms : Nat)
  | setReadDeadlineMs (ms : Nat)
  | encoderClose
  | decoderClose
  | connClose
  | pipeCloseEof
  | wgWait
deriving DecidableEq, Repr

/-- Operation trace of `zstdDecompressor.Close`: `SetDeadline(now+10ms)`, lock
both mutexes, `writer.Close()`, `defer reader.Close()`, `WriteCloser.Close()`;
the deferred decoder close runs last. -/
def zstdDecompressorCloseTrace : List CloseOp :=
  [.setDeadlineMs 10, .encoderClose, .connClose, .decoderClose]

/-- Operation trace of `zstdCompressor.Close` (canonical zstd.go):
`writerW.CloseWithError(io.EOF)`, `writeWaitGroup.Wait()`, `writer.Close()`,
`WriteCloser.Close()`.  No deadline is armed. -/
def zstdCompressorCloseTrace : List CloseOp :=
  [.pipeCloseEof, .wgWait, .encoderClose, .connClose]

/-- Operation trace of the historical `zstdCompressor.Close` variant
(src/unnamed/part_004): it arms `SetReadDeadline(time.Now())` before waiting
for the read pump. -/
def zstdCompressorCloseTraceV1 : List CloseOp :=
  [.pipeCloseEof, .wgWait, .setReadDeadlineMs 0, .wgWait, .connClose]

/-- Whether a close trace arms a deadline covering the connection's read
operation (`SetDeadline` covers both directions). -/
def armsReadDeadline (t : List CloseOp) : Bool :=
  t.any fun op =>
    match op with
    | .setDeadlineMs _ => true
    | .setReadDeadlineMs _ => true
    | _ => false

/-- The error merge ending both `Close` methods:
`if writerErr != nil && err == nil { return writerErr }; return err`. -/
def closeErrMerge (writerErr connErr : Option GoErr) : Option GoErr :=
  if writerErr ≠ none ∧ connErr = none then writerErr else connErr

/-- `net.Conn.Close` as a state machine on "already closed": the first call
closes the connection and yields its result `firstErr`; any further call
returns `net.ErrClosed` (the documented already-closed status). -/
def connCloseStep (firstErr : Option GoErr) : Bool → Option GoErr × Bool
  | false => (firstErr, true)
  | true => (some .errClosed, true)

/-- `zstdDecompressor.Close` result: close the encoder (`writerErr`), close
the underlying connection once, and merge the two errors.  Returns the error
returned to the caller and the new connection state. -/
def zstdDecompressorClose (writerErr connFirstErr : Option GoErr)
    (closed : Bool) : Option GoErr × Bool :=
  let r := connCloseStep connFirstErr closed
  (closeErrMerge writerErr r.1, r.2)

/-- `zstdCompressor.Close` result: close the relay pipe, wait for the pump,
close the encoder (`writerErr`), close the underlying connection once, and
merge the two errors. -/
def zstdCompressorClose (writerErr connFirstErr : Option GoErr)
    (closed : Bool) : Option GoErr × Bool :=
  let r := connCloseStep connFirstErr closed
  (closeErrMerge writerErr r.1, r.2)

/-- `zstdDecompressor.Write`:
`n, err = writer.Write(p); err = writer.Flush(); if err != nil { return 0, err };
return n, err`.  `writeRes` is the encode step's `(n, err)` and `flushErr` the
flush step's error; the encode step's error is overwritten before it is ever
tested. -/
def zstdDecompressorWrite (writeRes : Nat × Option GoErr)
    (flushErr : Option GoErr) : Nat × Option GoErr :=
  match flushErr with
  | some e => (0, some e)
  | none => (writeRes.1, none)

/-- `zstdCompressor.Write`:
`n, err = writerW.Write(p); if err != nil { return 0, err }; return n, err`.
`pipeRes` is the `io.PipeWriter.Write` result on `p`. -/
def zstdCompressorWrite (pipeRes : Nat × Option GoErr) : Nat × Option GoErr :=
  match pipeRes.2 with
  | some e => (0, some e)
  | none => (pipeRes.1, none)

/-- Outcome of a Go constructor whose signature has no error result: it
returns a value or panics.  `errReturn` is the outcome the spec describes (a
failure surfaced as a returned error); the Go signature
`func NewZStdDecompressor(...) tcp.WriteCloser` cannot produce it. -/
inductive ConstructResult (α : Type) where
  | ok (w : α)
  | errReturn (e : GoErr)
  | panicked (e : GoErr)
deriving DecidableEq, Repr

/-- `NewZStdDecompressor`: `zstd.NewReader` then `zstd.NewWriter`, each
followed by `if err != nil { panic(err) }`.  `readerInit` / `writerInit` are
the codec constructors' results for the given level/dictionary options
(`none` = success). -/
def NewZStdDecompressor (readerInit writerInit : Option GoErr) :
    ConstructResult Unit :=
  match readerInit with
  | some e => .panicked e
  | none =>
    match writerInit with
    | some e => .panicked e
    | none => .ok ()

/-- `NewZStdCompressor`: `zstd.NewWriter` then `zstd.NewReader` (source
order), each followed by `if err != nil { panic(err) }`. -/
def NewZStdCompressor (writerInit readerInit : Option GoErr) :
    ConstructResult Unit :=
  match writerInit with
  | some e => .panicked e
  | none =>
    match readerInit with
    | some e => .panicked e
    | none => .ok ()

/-- Whether a construction outcome is an error surfaced as a return value. -/
def isErrReturn {α : Type} : ConstructResult α → Bool
  | .errReturn _ => true
  | _ => false

/-- The external zstd streaming codec, abstracted as a deterministic stateful
encoder and a stream decoder.  `encNext hist ch` is the byte output of
`Encoder.Write(ch)` followed by `Encoder.Flush()` after the chunks `hist` have
already been written and flushed (the encoder's state is a function of its
input history); `decStream` is the total plain output of a `Decoder` fed the
given compressed stream.  The round-trip contract relating them is taken as a
hypothesis by the theorems that need it. -/
structure StreamCodec where
  encNext : List (List Nat) → List Nat → List Nat
  decStream : List Nat → List Nat

/-- The bytes an encoder emits when the chunks `chunks` are written and
flushed one by one, starting from input history `hist`. -/
def encStream (c : StreamCodec) (hist chunks : List (List Nat)) : List Nat :=
  match chunks with
  | [] => []
  | ch :: rest => c.encNext hist ch ++ encStream c (hist ++ [ch]) rest

/-- The transparent codec: each flushed chunk is emitted verbatim and the
decoder is the identity.  It satisfies the codec round-trip contract and the
nonempty-flush property, and instantiates the witnesses. -/
def idCodec : StreamCodec :=
  ⟨fun _ ch => ch, fun b => b⟩

/-- One result of `conn.Read` on the underlying connection: `bytes ch` is
`(len ch, nil)` — `ch` may be empty, modelling a zero-byte read with no
error — `bytesEof ch` is `(len ch, io.EOF)`, and `fail e` is `(0, e)` for a
non-EOF I/O error.  A connection is modelled by the script of results its
successive reads produce; an exhausted script keeps returning `(0, io.EOF)`. -/
inductive ReadEv where
  | bytes (chunk : List Nat)
  | bytesEof (chunk : List Nat)
  | fail (code : Nat)
deriving DecidableEq, Repr

/-- `bytes.Buffer.Read` into a `k`-byte destination: on an empty buffer it
returns `(0, io.EOF)` unless `k = 0`; otherwise it returns up to `k` buffered
bytes and no error.  Result: `((bytes read, error), remaining buffer)`. -/
def bufferRead (buf : List Nat) (k : Nat) : (List Nat × Option GoErr) × List Nat :=
  if buf.isEmpty then (([], if k = 0 then none else some .eof), [])
  else ((buf.take k, none), buf.drop k)

/-- State of the canonical `zstdCompressor` read path: the remaining
connection script, the encoder's input history, and the contents of
`z.readBuffer`. -/
structure CompSt where
  script : List ReadEv
  hist : List (List Nat)
  buffer : List Nat
deriving DecidableEq, Repr

/-- `zstdCompressor.Read` (canonical zstd.go) into a `k`-byte destination:
if `readBuffer` is empty, read up to 4096 bytes from the connection; a non-EOF
error is returned as `(0, err)`; if bytes were read they are written to the
encoder and flushed, appending its output to `readBuffer`; if the connection
reported EOF and `readBuffer` is still empty, return `(0, io.EOF)`; finally
serve from `readBuffer` (whose read on an empty buffer yields `(0, io.EOF)`
itself).  Result: `((bytes, error), new state)`. -/
def zstdCompressorRead (c : StreamCodec) (k : Nat) (st : CompSt) :
    (List Nat × Option GoErr) × CompSt :=
  if st.buffer.isEmpty then
    match st.script with
    | [] => (([], some .eof), st)
    | ev :: rest =>
      match ev with
      | .fail e => (([], some (.other e)), ⟨rest, st.hist, st.buffer⟩)
      | .bytes ch =>
          if ch.isEmpty then
            let r := bufferRead st.buffer k
            (r.1, ⟨rest, st.hist, r.2⟩)
          else
            let buf := st.buffer ++ c.encNext st.hist ch
            let r := bufferRead buf k
            (r.1, ⟨rest, st.hist ++ [ch], r.2⟩)
      | .bytesEof ch =>
          if ch.isEmpty then
            (([], some .eof), ⟨rest, st.hist, st.buffer⟩)
          else
            let buf := st.buffer ++ c.encNext st.hist ch
            if buf.isEmpty then
              (([], some .eof), ⟨rest, st.hist ++ [ch], buf⟩)
            else
              let r := bufferRead buf k
              (r.1, ⟨rest, st.hist ++ [ch], r.2⟩)
  else
    let r := bufferRead st.buffer k
    (r.1, ⟨st.script, st.hist, r.2⟩)

/-- `io.ReadAll` driving `zstdCompressor.Read` with a `k`-byte scratch buffer:
accumulate the bytes of successive reads until a read returns an error;
`io.EOF` ends the stream successfully, any other error is returned. -/
def compressorReadAll (c : StreamCodec) (k : Nat) (hk : 0 < k) (st : CompSt) :
    Except GoErr (List Nat) :=
  match h : zstdCompressorRead c k st with
  | ((out, none), st') =>
      (compressorReadAll c k hk st').map (fun rest => out ++ rest)
  | ((out, some .eof), _) => .ok out
  | ((_, some .errClosed), _) => .error .errClosed
  | ((_, some (.other e)), _) => .error (.other e)
termination_by (st.script.length, st.buffer.length)
decreasing_by
  obtain ⟨s1, h1, b1⟩ := st'
  obtain ⟨script, hist, buffer⟩ := st
  by_cases hbe : buffer.isEmpty
  · have hbnil : buffer = [] := List.isEmpty_iff.mp hbe
    subst hbnil
    cases script with
    | nil => simp [zstdCompressorRead, bufferRead] at h
    | cons ev rest =>
      cases ev with
      | fail e => simp [zstdCompressorRead, bufferRead] at h
      | bytes ch =>
        by_cases hch : ch.isEmpty
        · simp [zstdCompressorRead, bufferRead, hch, Nat.pos_iff_ne_zero.mp hk] at h
        · by_cases he : (c.encNext hist ch).isEmpty
          · simp [zstdCompressorRead, bufferRead, hch, he,
              Nat.pos_iff_ne_zero.mp hk] at h
          · simp [zstdCompressorRead, bufferRead, hch, he] at h
            apply Prod.Lex.left
            simp [← h.2.1]
      | bytesEof ch =>
        by_cases hch : ch.isEmpty
        · simp [zstdCompressorRead, bufferRead, hch] at h
        · by_cases he : (c.encNext hist ch).isEmpty
          · simp [zstdCompressorRead, bufferRead, hch, he,
              Nat.pos_iff_ne_zero.mp hk] at h
          · simp [zstdCompressorRead, bufferRead, hch, he] at h
            apply Prod.Lex.left
            simp [← h.2.1]
  · simp [zstdCompressorRead, bufferRead, hbe] at h
    obtain ⟨-, hs1, -, hb1⟩ := h
    rw [← hs1, ← hb1]
    have hb : buffer ≠ [] := fun hx => by subst hx; simp at hbe
    have hlen : 0 < buffer.length := List.length_pos.mpr hb
    apply Prod.Lex.right
    simp only [List.length_drop]
    omega

/-- `zstdDecompressor.Write` success path: the bytes emitted onto the
underlying connection for a write of `p` after write history `hist` are the
encoder's flushed output (`writer.Write(p)` then `writer.Flush()`). -/
def zstdDecompressorWriteEmit (c : StreamCodec) (hist : List (List Nat))
    (p : List Nat) : List Nat :=
  c.encNext hist p

/-- `zstdDecompressor.Read` drained to EOF: the decoder (`z.reader`) pulls the
compressed bytes the connection delivered and yields their decoded stream. -/
def zstdDecompressorReadAll (c : StreamCodec) (compressed : List Nat) : List Nat :=
  c.decStream compressed

/-- The write path of the canonical `zstdCompressor`: buffers written via
`Write` enter `writerW` (an `io.Pipe` carrying their concatenation), and the
relay goroutine `z.reader.WriteTo(conn)` delivers the decoded stream to the
underlying connection. -/
def zstdCompressorDelivered (c : StreamCodec) (writes : List (List Nat)) : List Nat :=
  c.decStream writes.flatten

/-- The background read pump of the historical compressor
(src/unnamed/part_004 `NewZStdCompressor` goroutine): loop reading the
connection; on any read error (including EOF) return with that status; on a
zero-byte read continue; otherwise write the chunk to the encoder and flush.
Result: the compressed bytes pushed into the relay pipe and the terminal
status of the loop. -/
def compressorPump (c : StreamCodec) (hist : List (List Nat)) :
    List ReadEv → List Nat × GoErr
  | [] => ([], .eof)
  | .bytes ch :: rest =>
      if ch.isEmpty then compressorPump c hist rest
      else
        let r := compressorPump c (hist ++ [ch]) rest
        (c.encNext hist ch ++ r.1, r.2)
  | .bytesEof _ :: _ => ([], .eof)
  | .fail e :: _ => ([], .other e)


end StreamCompress

namespace StreamCompress

/-- C3: `New` fails exactly when the algorithm is not "zstd", or the level is
non-empty and unrecognised, or a dictionary path is given and unreadable; an
empty level string is accepted.  (`New` takes no connection, so no connection
is touched.) -/
theorem c3_new_error_iff (fs : String → Option (List Nat)) (config : Config)
    (name : String) :
    isErr (New fs config name) = true ↔
      config.algorithm ≠ "zstd" ∨
      (config.level ≠ "" ∧ (encoderLevelFromString config.level).1 = false) ∨
      (config.dictionary ≠ "" ∧ fs config.dictionary = none) := by
  unfold New isErr
  by_cases halg : config.algorithm = "zstd"
  · cases hb : (encoderLevelFromString config.level).1 <;>
      by_cases hlev : config.level = "" <;>
      by_cases hdict : config.dictionary = "" <;>
      cases hfs : fs config.dictionary <;>
      simp [halg, hb, hlev, hdict, hfs] <;> tauto
  · simp [halg]

/-- C2 counterexample: when the encode step fails (here after accepting 3
bytes with error code 7) but the flush step succeeds, `zstdDecompressor.Write`
returns `(3, nil)` — a positive count and no error — because the encode step's
error is overwritten by the flush result before it is checked.  The claim says
it must return 0 bytes and a non-nil error. -/
theorem c2_write_error_dropped :
    zstdDecompressorWrite (3, some (.other 7)) none = (3, none) := by
  rfl

/-- C2 (amended): `zstdDecompressor.Write` checks only the flush step: if the
flush fails it returns `(0, flushErr)`; if the flush succeeds it returns the
encode step's byte count with a nil error, even when the encode step itself
reported an error. -/
theorem c2_write_flush_only (writeRes : Nat × Option GoErr)
    (flushErr : Option GoErr) :
    (flushErr ≠ none → zstdDecompressorWrite writeRes flushErr = (0, flushErr)) ∧
    (flushErr = none → zstdDecompressorWrite writeRes flushErr = (writeRes.1, none)) := by
  cases flushErr <;> simp [zstdDecompressorWrite]

/-- C2 witness: the amended theorem applied at a concrete failing flush. -/
theorem c2_write_flush_only_witness :
    (some (GoErr.other 5) ≠ (none : Option GoErr)) ∧
      zstdDecompressorWrite (2, none) (some (.other 5)) = (0, some (.other 5)) :=
  ⟨by decide, (c2_write_flush_only (2, none) (some (.other 5))).1 (by decide)⟩

/-- C4 counterexample: when the decoder's codec init fails (error code 3),
`NewZStdDecompressor` panics with that error instead of surfacing an error
return to its caller (its Go signature has no error result at all). -/
theorem c4_construction_panics :
    NewZStdDecompressor (some (.other 3)) none = .panicked (.other 3) ∧
      isErrReturn (NewZStdDecompressor (some (.other 3)) none) = false := by
  constructor <;> rfl

/-- C4 (amended): wrapper construction fails at construction time — by a
panic carrying the codec-init error, not by an error return — whenever either
codec init fails, and returns a wrapper exactly when both inits succeed, so a
failure is never deferred to the first Read or Write on a constructed
wrapper. -/
theorem c4_construction_failure_immediate (ri wi : Option GoErr) :
    ((ri = none ∧ wi = none) ↔ NewZStdDecompressor ri wi = .ok ()) ∧
    (ri ≠ none ∨ wi ≠ none → ∃ e, NewZStdDecompressor ri wi = .panicked e) ∧
    ((wi = none ∧ ri = none) ↔ NewZStdCompressor wi ri = .ok ()) ∧
    (wi ≠ none ∨ ri ≠ none → ∃ e, NewZStdCompressor wi ri = .panicked e) := by
  cases ri <;> cases wi <;>
    simp [NewZStdDecompressor, NewZStdCompressor]

/-- C4 witness: the amended theorem applied at a concrete failing reader
init. -/
theorem c4_construction_failure_immediate_witness :
    ∃ e, NewZStdDecompressor (some (.other 3)) none = .panicked e :=
  (c4_construction_failure_immediate (some (.other 3)) none).2.1 (by decide)

/-- C5: each wrapper's `Close` closes the underlying connection exactly once
(one `connClose` in its operation trace), and returns the connection-close
error whenever the connection close failed, returning the codec-close error
only when the connection close succeeded. -/
theorem c5_close_error_priority (we ce : Option GoErr) :
    (ce ≠ none → (zstdDecompressorClose we ce false).1 = ce) ∧
    (ce = none → (zstdDecompressorClose we ce false).1 = we) ∧
    (ce ≠ none → (zstdCompressorClose we ce false).1 = ce) ∧
    (ce = none → (zstdCompressorClose we ce false).1 = we) ∧
    zstdDecompressorCloseTrace.count .connClose = 1 ∧
    zstdCompressorCloseTrace.count .connClose = 1 := by
  refine ⟨?_, ?_, ?_, ?_, by decide, by decide⟩ <;>
    cases we <;> cases ce <;>
      simp [zstdDecompressorClose, zstdCompressorClose, closeErrMerge,
        connCloseStep]

/-- C5 witness: the theorem applied with a failing connection close (code 9)
and a failing codec close (code 4): the connection error is returned. -/
theorem c5_close_error_priority_witness :
    (some (GoErr.other 9) ≠ (none : Option GoErr)) ∧
      (zstdDecompressorClose (some (.other 4)) (some (.other 9)) false).1 =
        some (.other 9) :=
  ⟨by decide,
    (c5_close_error_priority (some (.other 4)) (some (.other 9))).1 (by decide)⟩

/-- C6: a second `Close` on the same wrapper, whatever the codec-close results
of either call and whatever the first connection-close result, returns
`net.ErrClosed` — the defined "already closed" status of the underlying
connection — not a new failure mode (the model's sub-operations are the
non-panicking behaviors the `net.Conn` and codec close contracts define). -/
theorem c6_close_idempotent (w1 w2 ce : Option GoErr) :
    (zstdDecompressorClose w2 ce (zstdDecompressorClose w1 ce false).2).1 =
        some .errClosed ∧
    (zstdCompressorClose w2 ce (zstdCompressorClose w1 ce false).2).1 =
        some .errClosed := by
  cases w2 <;>
    simp [zstdDecompressorClose, zstdCompressorClose, closeErrMerge,
      connCloseStep]

/-- C7 counterexample: the canonical encode-side wrapper's `Close`
(`zstdCompressor.Close` in zstd.go) performs no deadline-arming operation on
the underlying connection at all, refuting the claim that every wrapper's
`Close` arms a read deadline. -/
theorem c7_compressor_close_no_deadline :
    armsReadDeadline zstdCompressorCloseTrace = false := by
  decide

/-- C7 (amended): the decode-side wrapper's `Close` arms a 10 ms deadline
covering the connection's read operation, and the historical pump-based
encode-side variant (src/unnamed/part_004) arms an immediate read deadline
before waiting for its read pump; the canonical encode-side wrapper's `Close`
arms no deadline and instead closes its internal relay pipe with EOF before
waiting. -/
theorem c7_close_deadlines :
    armsReadDeadline zstdDecompressorCloseTrace = true ∧
    zstdDecompressorCloseTrace.count (.setDeadlineMs 10) = 1 ∧
    armsReadDeadline zstdCompressorCloseTraceV1 = true ∧
    armsReadDeadline zstdCompressorCloseTrace = false ∧
    zstdCompressorCloseTrace.count .pipeCloseEof = 1 := by
  decide

/-- C10: `zstdCompressor.Write` either returns `(len p, nil)` — given the
`io.Pipe` contract that a nil-error pipe write consumed the whole buffer — or
returns 0 together with a non-nil error; never a positive count with an
error. -/
theorem c10_write_atomic (p : List Nat) (pipeRes : Nat × Option GoErr)
    (hpipe : pipeRes.2 = none → pipeRes.1 = p.length) :
    zstdCompressorWrite pipeRes = (p.length, none) ∨
      ((zstdCompressorWrite pipeRes).1 = 0 ∧
        (zstdCompressorWrite pipeRes).2 ≠ none) := by
  obtain ⟨n, e⟩ := pipeRes
  cases e with
  | none =>
      have h := hpipe rfl
      simp only at h
      exact Or.inl (by simp [zstdCompressorWrite, h])
  | some e => exact Or.inr (by simp [zstdCompressorWrite])

/-- C10 witness: the theorem applied to a successful 4-byte pipe write. -/
theorem c10_write_atomic_witness :
    zstdCompressorWrite (4, none) = (([0, 1, 2, 3] : List Nat).length, none) ∨
      ((zstdCompressorWrite (4, none)).1 = 0 ∧
        (zstdCompressorWrite (4, none)).2 ≠ none) :=
  c10_write_atomic [0, 1, 2, 3] (4, none) (by decide)


/-- Helper: one successful (nil-error) step of the `io.ReadAll` driver
prepends its bytes to the remainder of the drive. -/
theorem readAll_step_none (c : StreamCodec) (k : Nat) (hk : 0 < k)
    (st : CompSt) (out : List Nat) (st' : CompSt)
    (h : zstdCompressorRead c k st = ((out, none), st')) :
    compressorReadAll c k hk st =
      (compressorReadAll c k hk st').map (fun r => out ++ r) := by
  rw [compressorReadAll]
  split <;> rename_i heq <;> rw [h] at heq <;> simp_all

/-- Helper: a step returning `io.EOF` ends the `io.ReadAll` drive with the
bytes accumulated so far. -/
theorem readAll_step_eof (c : StreamCodec) (k : Nat) (hk : 0 < k)
    (st : CompSt) (out : List Nat) (st' : CompSt)
    (h : zstdCompressorRead c k st = ((out, some .eof), st')) :
    compressorReadAll c k hk st = .ok out := by
  rw [compressorReadAll]
  split <;> rename_i heq <;> rw [h] at heq <;> simp_all


/-- Helper: draining the read path first serves the whole pending
`readBuffer`, then continues as if the buffer had been empty. -/
theorem readAll_drain (c : StreamCodec) (k : Nat) (hk : 0 < k) :
    ∀ (n : Nat) (s : List ReadEv) (hist : List (List Nat)) (buf : List Nat),
      buf.length ≤ n →
      compressorReadAll c k hk ⟨s, hist, buf⟩ =
        (compressorReadAll c k hk ⟨s, hist, []⟩).map (fun r => buf ++ r) := by
  intro n
  induction n with
  | zero =>
      intro s hist buf hb
      have hbe : buf = [] := List.eq_nil_of_length_eq_zero (Nat.le_zero.mp hb)
      subst hbe
      cases compressorReadAll c k hk ⟨s, hist, []⟩ <;> simp [Except.map]
  | succ n ih =>
      intro s hist buf hb
      by_cases hbe : buf = []
      · subst hbe
        cases compressorReadAll c k hk ⟨s, hist, []⟩ <;> simp [Except.map]
      · have hstep : zstdCompressorRead c k ⟨s, hist, buf⟩ =
            ((buf.take k, none), ⟨s, hist, buf.drop k⟩) := by
          simp [zstdCompressorRead, bufferRead, hbe]
        rw [readAll_step_none c k hk _ _ _ hstep]
        have hlen : buf.length ≤ n + 1 := hb
        have hpos : 0 < buf.length := List.length_pos.mpr hbe
        have hdrop : (buf.drop k).length ≤ n := by
          simp only [List.length_drop]
          omega
        rw [ih s hist (buf.drop k) hdrop]
        cases compressorReadAll c k hk ⟨s, hist, []⟩ <;>
          simp [Except.map, ← List.append_assoc, List.take_append_drop]

/-- Helper: draining the canonical compressor over a connection that delivers
the nonempty chunks `chunks` and then EOF yields exactly the encoder's flushed
output for those chunks, provided each nonempty flush emits at least one
byte. -/
theorem readAll_bytes (c : StreamCodec) (k : Nat) (hk : 0 < k)
    (hne : ∀ h ch, ch ≠ [] → c.encNext h ch ≠ []) :
    ∀ (chunks : List (List Nat)) (hist : List (List Nat)),
      (∀ ch ∈ chunks, ch ≠ []) →
      compressorReadAll c k hk ⟨chunks.map .bytes, hist, []⟩ =
        .ok (encStream c hist chunks) := by
  intro chunks
  induction chunks with
  | nil =>
      intro hist _
      have hstep : zstdCompressorRead c k ⟨[], hist, []⟩ =
          (([], some .eof), ⟨[], hist, []⟩) := by
        simp [zstdCompressorRead]
      simp only [List.map_nil]
      rw [readAll_step_eof c k hk _ _ _ hstep]
      rfl
  | cons ch rest ih =>
      intro hist hch
      have hch1 : ch ≠ [] := hch ch (by simp)
      have henc : c.encNext hist ch ≠ [] := hne hist ch hch1
      have hstep : zstdCompressorRead c k ⟨(ch :: rest).map .bytes, hist, []⟩ =
          (((c.encNext hist ch).take k, none),
            ⟨rest.map .bytes, hist ++ [ch], (c.encNext hist ch).drop k⟩) := by
        simp [zstdCompressorRead, bufferRead, hch1, henc]
      rw [readAll_step_none c k hk _ _ _ hstep]
      rw [readAll_drain c k hk ((c.encNext hist ch).drop k).length _ _ _ le_rfl]
      rw [ih (hist ++ [ch]) (fun x hx => hch x (by simp [hx]))]
      simp [Except.map, encStream, ← List.append_assoc, List.take_append_drop]

/-- Helper: the transparent codec emits each chunk verbatim, whatever the
history. -/
theorem idCodec_encStream (hist chunks : List (List Nat)) :
    encStream idCodec hist chunks = chunks.flatten := by
  induction chunks generalizing hist with
  | nil => simp [encStream]
  | cons ch rest ih =>
      simp only [encStream]
      rw [ih]
      rfl

/-- Helper: the transparent codec satisfies the codec round-trip contract. -/
theorem idCodec_law (cs : List (List Nat)) :
    idCodec.decStream (encStream idCodec [] cs) = cs.flatten :=
  idCodec_encStream [] cs

/-- C1: for every byte sequence delivered by the connection as any finite
sequence of nonempty reads of at most 4096 bytes (so including empty overall
content, single bytes, and content spanning the 4 KiB chunk boundary),
draining the encode-side wrapper and decoding the produced stream with a
codec of the same configuration — one satisfying the streaming round-trip
contract and emitting at least one byte per nonempty flush — yields exactly
the original bytes; and a message written on the decode-side wrapper and
relayed through the encode-side wrapper's write path is delivered
unchanged. -/
theorem c1_round_trip (c : StreamCodec) (k : Nat) (hk : 0 < k)
    (hlaw : ∀ cs, c.decStream (encStream c [] cs) = cs.flatten)
    (hne : ∀ h ch, ch ≠ [] → c.encNext h ch ≠ [])
    (chunks : List (List Nat))
    (hch : ∀ ch ∈ chunks, ch ≠ [] ∧ ch.length ≤ 4096)
    (m : List Nat) :
    (compressorReadAll c k hk ⟨chunks.map .bytes, [], []⟩).map
        (zstdDecompressorReadAll c) = .ok chunks.flatten ∧
    zstdCompressorDelivered c [zstdDecompressorWriteEmit c [] m] = m := by
  constructor
  · rw [readAll_bytes c k hk hne chunks [] (fun ch h => (hch ch h).1)]
    simp [Except.map, zstdDecompressorReadAll, hlaw]
  · have h := hlaw [m]
    simp only [encStream, List.flatten] at h
    simpa [zstdCompressorDelivered, zstdDecompressorWriteEmit] using h

/-- C1 witness: the theorem applied to the transparent codec, the chunked
delivery `[5]`, `[6,7,8]`, and the message `[9,10]`. -/
theorem c1_round_trip_witness :
    (compressorReadAll idCodec 2 (by decide) ⟨[[5], [6, 7, 8]].map .bytes, [], []⟩).map
        (zstdDecompressorReadAll idCodec) = .ok ([[5], [6, 7, 8]] : List (List Nat)).flatten ∧
    zstdCompressorDelivered idCodec [zstdDecompressorWriteEmit idCodec [] [9, 10]] = [9, 10] :=
  c1_round_trip idCodec 2 (by decide) idCodec_law (fun _ _ h => h)
    [[5], [6, 7, 8]] (by decide) [9, 10]

/-- C8 counterexample: in the canonical `zstdCompressor.Read`, a zero-byte
read with no error from the connection, arriving while the internal buffer is
empty, is reported to the caller as `(0, io.EOF)` — ending the caller-visible
stream even though the connection still holds the byte 42 and never reported
end-of-stream or an error. -/
theorem c8_zero_read_spurious_eof :
    zstdCompressorRead idCodec 4 ⟨[.bytes [], .bytes [42]], [], []⟩ =
      (([], some .eof), ⟨[.bytes [42]], [], []⟩) := by
  decide

/-- C8 (amended): in the pump-loop variant (src/unnamed/part_004) a zero-byte
no-error read does not terminate the pump, produces no output and no error,
and the pump's terminal status arises only from a connection end-of-stream or
I/O error; in the canonical `zstdCompressor.Read`, by contrast, a zero-byte
no-error read with an empty internal buffer is reported to the caller as
`(0, io.EOF)`. -/
theorem c8_pump_zero_read (c : StreamCodec) (hist : List (List Nat))
    (rest r2 : List ReadEv) (e : Nat) (s : List ReadEv) (h2 : List (List Nat))
    (k : Nat) (hk : 0 < k) :
    compressorPump c hist (.bytes [] :: rest) = compressorPump c hist rest ∧
    (compressorPump c hist []).2 = .eof ∧
    (compressorPump c hist (.fail e :: r2)).2 = .other e ∧
    zstdCompressorRead c k ⟨.bytes [] :: s, h2, []⟩ =
      (([], some .eof), ⟨s, h2, []⟩) := by
  refine ⟨by simp [compressorPump], rfl, rfl, ?_⟩
  simp [zstdCompressorRead, bufferRead, Nat.pos_iff_ne_zero.mp hk]

/-- C9 counterexample: `zstdCompressor.Read` returns `(0, io.EOF)` on a
connection whose single read result is a zero-byte success — end-of-stream is
reported to the caller although the connection never returned `io.EOF`,
refuting the "only when EOF has been seen" part of the claim. -/
theorem c9_eof_not_seen :
    (zstdCompressorRead idCodec 4 ⟨[.bytes []], [], []⟩).1 = ([], some .eof) := by
  decide

/-- C9 (amended): `zstdCompressor.Read` serves pending buffered bytes with a
nil error before reporting anything else; a read returning `io.EOF` together
with data has that data compressed and served with a nil error, so EOF never
discards buffered compressed data; `(0, io.EOF)` is returned when the
connection is exhausted and the buffer is empty; and — provided each nonempty
flush emits at least one byte — a `(0, io.EOF)` result implies the buffer was
empty and the connection either reported EOF or performed a zero-byte
no-error read (the latter being the exception the counterexample forces). -/
theorem c9_buffered_before_eof (c : StreamCodec)
    (hne : ∀ h ch, ch ≠ [] → c.encNext h ch ≠ [])
    (k : Nat) (s : List ReadEv) (hist : List (List Nat))
    (buf : List Nat) (ch : List Nat) :
    (buf ≠ [] → zstdCompressorRead c k ⟨s, hist, buf⟩ =
      ((buf.take k, none), ⟨s, hist, buf.drop k⟩)) ∧
    (ch ≠ [] → zstdCompressorRead c k ⟨.bytesEof ch :: s, hist, []⟩ =
      (((c.encNext hist ch).take k, none),
        ⟨s, hist ++ [ch], (c.encNext hist ch).drop k⟩)) ∧
    zstdCompressorRead c k ⟨[], hist, []⟩ = (([], some .eof), ⟨[], hist, []⟩) ∧
    ((zstdCompressorRead c k ⟨s, hist, buf⟩).1.2 = some .eof →
      buf = [] ∧ (s = [] ∨ s.head? = some (.bytesEof []) ∨ s.head? = some (.bytes []))) := by
  refine ⟨?_, ?_, ?_, ?_⟩
  · intro hb
    simp [zstdCompressorRead, bufferRead, hb]
  · intro hc
    have he := hne hist ch hc
    simp [zstdCompressorRead, bufferRead, hc, he]
  · simp [zstdCompressorRead]
  · intro heof
    by_cases hb : buf = []
    · subst hb
      refine ⟨rfl, ?_⟩
      cases s with
      | nil => simp
      | cons ev rest =>
          cases ev with
          | bytes chv =>
              by_cases hcv : chv = []
              · subst hcv; simp
              · have he := hne hist chv hcv
                simp [zstdCompressorRead, bufferRead, hcv, he] at heof
          | bytesEof chv =>
              by_cases hcv : chv = []
              · subst hcv; simp
              · have he := hne hist chv hcv
                simp [zstdCompressorRead, bufferRead, hcv, he] at heof
          | fail e =>
              simp [zstdCompressorRead, bufferRead] at heof
    · simp [zstdCompressorRead, bufferRead, hb] at heof

/-- C8 witness: the amended theorem applied at concrete inputs. -/
theorem c8_pump_zero_read_witness :
    compressorPump idCodec [] [.bytes [], .bytes [3]] =
        compressorPump idCodec [] [.bytes [3]] ∧
    (compressorPump idCodec [] []).2 = .eof ∧
    (compressorPump idCodec [] [.fail 5]).2 = .other 5 ∧
    zstdCompressorRead idCodec 1 ⟨.bytes [] :: [.bytes [7]], [], []⟩ =
      (([], some .eof), ⟨[.bytes [7]], [], []⟩) :=
  c8_pump_zero_read idCodec [] [.bytes [3]] [] 5 [.bytes [7]] [] 1 (by decide)

/-- C9 witness: the amended theorem applied at concrete inputs (a pending
buffer `[4, 5]` and an EOF read carrying the chunk `[1, 2]`). -/
theorem c9_buffered_before_eof_witness :
    (([4, 5] : List Nat) ≠ [] →
      zstdCompressorRead idCodec 3 ⟨[], [], [4, 5]⟩ =
        ((([4, 5] : List Nat).take 3, none), ⟨[], [], ([4, 5] : List Nat).drop 3⟩)) ∧
    (([1, 2] : List Nat) ≠ [] →
      zstdCompressorRead idCodec 3 ⟨.bytesEof [1, 2] :: [], [], []⟩ =
        (((idCodec.encNext [] [1, 2]).take 3, none),
          ⟨[], [] ++ [[1, 2]], (idCodec.encNext [] [1, 2]).drop 3⟩)) ∧
    zstdCompressorRead idCodec 3 ⟨[], [], []⟩ = (([], some .eof), ⟨[], [], []⟩) ∧
    ((zstdCompressorRead idCodec 3 ⟨[], [], [4, 5]⟩).1.2 = some .eof →
      ([4, 5] : List Nat) = [] ∧
        (([] : List ReadEv) = [] ∨
          ([] : List ReadEv).head? = some (.bytesEof []) ∨
          ([] : List ReadEv).head? = some (.bytes []))) :=
  c9_buffered_before_eof idCodec (fun _ _ h => h) 3 [] [] [4, 5] [1, 2]

end StreamCompress
